import Mathlib

/-!
# Conversation-thread resolution and aggregation engine

Shallow embedding of the message-handling core of the Finder's-Keeper
lambda functions:

* `GetMessages.lambda_handler`  — thread aggregator
  (src/lambda_functions/GetMessages/get_messages.py),
* `SendReply.send_reply_message_in_existing_conversation_thread` — thread
  resolver (src/lambda_functions/SendReply/send_reply.py),
* `SendContact.lambda_handler` — initial-contact flow
  (src/lambda_functions/SendNotification/send_contact.py).

The DynamoDB message store is modelled as a `Store` holding the main table
(the list scanned by `scan`) together with the view exposed by the
eventually consistent `RecipientIndex` GSI (the list served by `query`);
the two views are unconstrained relative to each other, which models index
lag.  Every store access performed by a handler is recorded in an `Effect`
trace, so frame and atomicity properties are statements about the trace.
-/

/-- A record of the Messages table.  The creation flows always write every
attribute, so attributes are total fields here (the Python code reads them
with `.get` and a default, which coincides with plain field access on
records written by the flows). -/
structure Message where
  id : String
  itemId : String
  itemTitle : String
  itemStatus : String
  senderUserId : String
  senderEmail : String
  senderName : String
  recipientUserId : String
  recipientEmail : String
  recipientName : String
  message : String
  createdAt : String
  read : Bool
deriving DecidableEq, Repr

/-- A record of the Items table, restricted to the attributes the
message flows read. -/
structure Item where
  id : String
  title : String
  status : String
  userId : String
  userEmail : String
  userName : String
deriving DecidableEq, Repr

/-- The message store.  `table` is the primary table in scan order;
`gsiView` is the (eventually consistent) view served by the
`RecipientIndex` GSI, which may lag behind `table`. -/
structure Store where
  table : List Message
  gsiView : List Message
deriving DecidableEq, Repr

/-- One store access performed by a handler, in program order. -/
inductive Effect where
  | queryRecipient (uid : String)
  | scanTable
  | getItem (itemId : String)
  | putMessage (m : Message)
deriving DecidableEq, Repr

/-- The message records written by a trace of effects. -/
def effectWrites (es : List Effect) : List Message :=
  es.filterMap fun e =>
    match e with
    | .putMessage m => some m
    | _ => none

/-- Applying a trace to a store appends exactly the written records to the
main table (the GSI view catches up asynchronously and is left as-is). -/
def applyEffects (s : Store) (es : List Effect) : Store :=
  { s with table := s.table ++ effectWrites es }

/-! ## String comparison

Python compares strings lexicographically by code point, which is exactly
Lean's `String` order (lexicographic on the character list).  We compare
the underlying character lists directly — `String.decidableLT` is
implemented by well-founded recursion on iterators and does not reduce
inside the kernel, while the list comparison does, so concrete witnesses
can be checked by `decide`. -/

/-- Code-point lexicographic strict comparison, as a kernel-evaluable
Boolean. -/
def strLt (a b : String) : Bool := decide (a.data < b.data)

/-- Code-point lexicographic non-strict comparison, as a kernel-evaluable
Boolean. -/
def strLe (a b : String) : Bool := decide (a.data ≤ b.data)

theorem strLt_iff (a b : String) : strLt a b = true ↔ a < b := by
  simp only [strLt, decide_eq_true_eq, String.lt_iff_toList_lt, String.toList]

theorem strLe_iff (a b : String) : strLe a b = true ↔ a ≤ b := by
  simp only [strLe, decide_eq_true_eq, String.le_iff_toList_le, String.toList]

theorem strLt_eq_false_iff (a b : String) : strLt a b = false ↔ ¬ a < b := by
  rw [← strLt_iff]
  cases strLt a b <;> simp

theorem strLe_eq_false_iff (a b : String) : strLe a b = false ↔ ¬ a ≤ b := by
  rw [← strLe_iff]
  cases strLe a b <;> simp

theorem strLt_self (a : String) : strLt a a = false :=
  (strLt_eq_false_iff a a).mpr (lt_irrefl a)

/-! ## Stable insertion sort

Python's `list.sort` is a stable sort; a stable sort's output is uniquely
determined by the key order and the input order, so any stable sort is an
extensionally faithful model of it.  We use insertion sort. -/

section StableSort

variable {α : Type} (le : α → α → Bool)

/-- Insert `x` in front of the first element `y` with `le x y`.  With
`le a b = decide (key a ≤ key b)` this realises a stable ascending sort;
with `le a b = decide (key b ≤ key a)` a stable descending one. -/
def insertSorted (x : α) : List α → List α
  | [] => [x]
  | y :: ys => if le x y then x :: y :: ys else y :: insertSorted x ys

/-- Stable sort by `le`. -/
def stableSort (l : List α) : List α := l.foldr (insertSorted le) []

theorem insertSorted_perm (x : α) (l : List α) :
    List.Perm (insertSorted le x l) (x :: l) := by
  induction l with
  | nil => simp [insertSorted]
  | cons y ys ih =>
    by_cases h : le x y = true
    · simp [insertSorted, h]
    · simp only [insertSorted, h]
      rw [if_neg (by simp [h])]
      exact (List.Perm.cons y ih).trans (List.Perm.swap x y ys)

theorem stableSort_perm (l : List α) : List.Perm (stableSort le l) l := by
  induction l with
  | nil => simp [stableSort]
  | cons x xs ih =>
    exact ((insertSorted_perm le x (stableSort le xs)).trans
      (List.Perm.cons x ih))

theorem mem_insertSorted {x a : α} {l : List α} :
    a ∈ insertSorted le x l ↔ a = x ∨ a ∈ l := by
  constructor
  · intro h
    have := (insertSorted_perm le x l).mem_iff.mp h
    simpa using this
  · intro h
    exact (insertSorted_perm le x l).mem_iff.mpr (by simpa using h)

theorem insertSorted_pairwise
    (htot : ∀ a b, le a b = false → le b a = true)
    (htrans : ∀ a b c, le a b = true → le b c = true → le a c = true)
    {x : α} {l : List α}
    (hl : l.Pairwise (fun a b => le a b = true)) :
    (insertSorted le x l).Pairwise (fun a b => le a b = true) := by
  induction l with
  | nil => simp [insertSorted]
  | cons y ys ih =>
    rcases List.pairwise_cons.mp hl with ⟨hy, hys⟩
    by_cases h : le x y = true
    · have heq : insertSorted le x (y :: ys) = x :: y :: ys := by
        simp [insertSorted, h]
      rw [heq]
      refine List.pairwise_cons.mpr ⟨?_, hl⟩
      intro b hb
      rcases List.mem_cons.mp hb with rfl | hb
      · exact h
      · exact htrans x y b h (hy b hb)
    · have heq : insertSorted le x (y :: ys) = y :: insertSorted le x ys := by
        simp [insertSorted, h]
      rw [heq]
      refine List.pairwise_cons.mpr ⟨?_, ih hys⟩
      intro b hb
      rcases (mem_insertSorted le).mp hb with heq | hb
      · exact heq ▸ htot x y (by simpa using h)
      · exact hy b hb

theorem stableSort_pairwise
    (htot : ∀ a b, le a b = false → le b a = true)
    (htrans : ∀ a b c, le a b = true → le b c = true → le a c = true)
    (l : List α) :
    (stableSort le l).Pairwise (fun a b => le a b = true) := by
  induction l with
  | nil => simp [stableSort]
  | cons x xs ih => exact insertSorted_pairwise le htot htrans ih

theorem filter_insertSorted (p : α → Bool)
    (hp : ∀ a b, le a b = false → p a = true → p b = true → False)
    (x : α) (l : List α) :
    (insertSorted le x l).filter p =
      if p x then x :: l.filter p else l.filter p := by
  induction l with
  | nil => cases hx : p x <;> simp [insertSorted, List.filter, hx]
  | cons y ys ih =>
    by_cases h : le x y = true
    · cases hx : p x <;> simp [insertSorted, h, List.filter, hx]
    · have hxy := fun ha hb => hp x y (by simpa using h) ha hb
      have heq : insertSorted le x (y :: ys) = y :: insertSorted le x ys := by
        simp [insertSorted, h]
      by_cases hx : p x = true
      · have hy : p y = false := by
          cases hpy : p y
          · rfl
          · exact absurd (hxy hx hpy) (by simp)
        simp [heq, List.filter, hx, hy, ih]
      · have hx' : p x = false := by simpa using hx
        cases hy : p y <;> simp [heq, List.filter, hx', hy, ih]

theorem filter_stableSort (p : α → Bool)
    (hp : ∀ a b, le a b = false → p a = true → p b = true → False)
    (l : List α) :
    (stableSort le l).filter p = l.filter p := by
  induction l with
  | nil => simp [stableSort]
  | cons x xs ih =>
    show (insertSorted le x (stableSort le xs)).filter p = _
    rw [filter_insertSorted le p hp]
    by_cases hx : p x = true <;> simp [List.filter, hx, ih]

theorem countP_stableSort (p : α → Bool) (l : List α) :
    (stableSort le l).countP p = l.countP p :=
  (stableSort_perm le l).countP_eq p

end StableSort

/-! ## Thread Aggregator (GetMessages/get_messages.py, `lambda_handler`) -/

namespace GetMessages

/-- Thread key: `f"{item_id}#{user_ids[0]}#{user_ids[1]}"` where
`user_ids = sorted([sender_id, recipient_id])` (get_messages.py lines
160-162).  `sorted` on a two-element list swaps exactly when the second
element is strictly below the first. -/
def thread_id (itemId senderId recipientId : String) : String :=
  if strLt recipientId senderId then
    itemId ++ "#" ++ recipientId ++ "#" ++ senderId
  else
    itemId ++ "#" ++ senderId ++ "#" ++ recipientId

/-- A derived conversation thread (the dict built at lines 170-181). -/
structure Thread where
  threadId : String
  itemId : String
  itemTitle : String
  itemStatus : String
  otherUserId : String
  otherUserName : String
  otherUserEmail : String
  messages : List Message
  lastMessageTime : String
  unreadCount : Nat
deriving DecidableEq, Repr

/-- The fresh thread entry created when a key is first seen
(lines 164-181): empty message list, `lastMessageTime` seeded with the
creating message's `createdAt`, zero unread. -/
def newThread (userId tid : String) (msg : Message) : Thread :=
  { threadId := tid
    itemId := msg.itemId
    itemTitle := msg.itemTitle
    itemStatus := msg.itemStatus
    otherUserId := if msg.senderUserId != userId then msg.senderUserId
                   else msg.recipientUserId
    otherUserName := if msg.senderUserId != userId then msg.senderName
                     else msg.recipientName
    otherUserEmail := if msg.senderUserId != userId then msg.senderEmail
                      else msg.recipientEmail
    messages := []
    lastMessageTime := msg.createdAt
    unreadCount := 0 }

/-- Lines 183-192: append the message, bump `lastMessageTime` when the
message is strictly newer, count it as unread when it is addressed to the
requesting user and not read. -/
def threadAddMessage (userId : String) (t : Thread) (msg : Message) : Thread :=
  { t with
    messages := t.messages ++ [msg]
    lastMessageTime := if strLt t.lastMessageTime msg.createdAt then msg.createdAt
                       else t.lastMessageTime
    unreadCount := t.unreadCount +
      (if msg.recipientUserId == userId && !msg.read then 1 else 0) }

/-- The thread key of a message, as derived at lines 156-162. -/
def groupKey (msg : Message) : String :=
  thread_id msg.itemId msg.senderUserId msg.recipientUserId

/-- One iteration of the grouping loop (lines 154-192) over the
association list modelling the Python insertion-ordered dict: create the
entry if the key is new, then append the message to its entry. -/
def groupStep (userId : String) (acc : List (String × Thread)) (msg : Message) :
    List (String × Thread) :=
  (if (acc.find? (fun p => p.1 == groupKey msg)).isSome then acc
   else acc ++ [(groupKey msg, newThread userId (groupKey msg) msg)]).map
    (fun p => if p.1 == groupKey msg then (p.1, threadAddMessage userId p.2 msg) else p)

/-- The grouping loop over all fetched messages. -/
def groupMessages (userId : String) (msgs : List Message) : List (String × Thread) :=
  msgs.foldl (groupStep userId) []

/-- Comparison used to sort a thread's messages ascending by `createdAt`
(line 196). -/
def msgLe (a b : Message) : Bool := strLe a.createdAt b.createdAt

/-- Comparison used to sort the thread list descending by
`lastMessageTime` (line 200, `reverse=True`). -/
def threadLe (a b : Thread) : Bool := strLe b.lastMessageTime a.lastMessageTime

/-- Lines 195-196: in-place stable ascending sort of a thread's messages. -/
def sortThreadMessages (t : Thread) : Thread :=
  { t with messages := stableSort msgLe t.messages }

/-- The clean JSON object returned at lines 207-213. -/
structure AggResponse where
  threads : List Thread
  totalThreads : Nat
  totalMessages : Nat
  unreadCount : Nat
deriving DecidableEq, Repr

/-- The combined input message set (lines 123-144): the RecipientIndex
query for messages received by the user, followed by the table scan for
messages the user sent. -/
def inputMessages (store : Store) (userId : String) : List Message :=
  store.gsiView.filter (fun m => m.recipientUserId == userId)
    ++ store.table.filter (fun m => m.senderUserId == userId)

/-- GET /messages handler (get_messages.py `lambda_handler`), paired with
the trace of store accesses it performs. -/
def lambda_handler (store : Store) (userId : String) : AggResponse × List Effect :=
  let messages := inputMessages store userId
  let grouped := groupMessages userId messages
  let threadList0 := grouped.map (fun p => sortThreadMessages p.2)
  let threadList := stableSort threadLe threadList0
  ({ threads := threadList
     totalThreads := threadList.length
     totalMessages := messages.length
     unreadCount := (threadList.map (fun t => t.unreadCount)).sum },
   [.queryRecipient userId, .scanTable])

/-- Invariant maintained for every thread the grouping loop builds:
`lastMessageTime` is the maximum `createdAt` of the thread's messages and
`unreadCount` counts the unread messages addressed to the requesting
user. -/
def threadInv (userId : String) (t : Thread) : Prop :=
  (∀ m ∈ t.messages, m.createdAt ≤ t.lastMessageTime) ∧
  (∃ m ∈ t.messages, m.createdAt = t.lastMessageTime) ∧
  t.unreadCount = t.messages.countP (fun m => m.recipientUserId == userId && !m.read)

theorem threadInv_addMessage {userId : String} {t : Thread} {msg : Message}
    (h : threadInv userId t) : threadInv userId (threadAddMessage userId t msg) := by
  obtain ⟨hub, ⟨w, hw, hweq⟩, hcnt⟩ := h
  refine ⟨?_, ?_, ?_⟩
  · intro m hm
    simp only [threadAddMessage] at hm ⊢
    rcases List.mem_append.mp hm with hm | hm
    · by_cases hlt : strLt t.lastMessageTime msg.createdAt = true
      · rw [if_pos hlt]
        exact (hub m hm).trans ((strLt_iff _ _).mp hlt).le
      · rw [if_neg hlt]; exact hub m hm
    · have hmeq : m = msg := by simpa using hm
      rw [hmeq]
      by_cases hlt : strLt t.lastMessageTime msg.createdAt = true
      · rw [if_pos hlt]
      · rw [if_neg hlt]
        exact le_of_not_lt (fun hl => hlt ((strLt_iff _ _).mpr hl))
  · simp only [threadAddMessage]
    by_cases hlt : strLt t.lastMessageTime msg.createdAt = true
    · exact ⟨msg, by simp, by rw [if_pos hlt]⟩
    · exact ⟨w, by simp [hw], by rw [if_neg hlt]; exact hweq⟩
  · simp only [threadAddMessage]
    rw [hcnt, List.countP_append]
    cases hpm : (msg.recipientUserId == userId && !msg.read) <;>
      simp [List.countP_cons, hpm]

theorem threadInv_newEntry (userId tid : String) (msg : Message) :
    threadInv userId (threadAddMessage userId (newThread userId tid msg) msg) := by
  refine ⟨?_, ?_, ?_⟩
  · intro m hm
    have hmeq : m = msg := by
      simpa [threadAddMessage, newThread] using hm
    rw [hmeq]
    simp [threadAddMessage, newThread, strLt_self]
  · exact ⟨msg, by simp [threadAddMessage, newThread], by
      simp [threadAddMessage, newThread, strLt_self]⟩
  · simp only [threadAddMessage, newThread]
    cases hpm : (msg.recipientUserId == userId && !msg.read) <;>
      simp [List.countP_cons, hpm]

theorem mem_groupStep {userId : String} {acc : List (String × Thread)}
    {msg : Message} {p : String × Thread}
    (hp : p ∈ groupStep userId acc msg) :
    p ∈ acc ∨
    (∃ q ∈ acc, p = (q.1, threadAddMessage userId q.2 msg)) ∨
    p = (groupKey msg,
      threadAddMessage userId (newThread userId (groupKey msg) msg) msg) := by
  classical
  unfold groupStep at hp
  set tid := groupKey msg with htid
  by_cases hc : (acc.find? (fun q => q.1 == tid)).isSome = true
  · rw [if_pos hc] at hp
    rcases List.mem_map.mp hp with ⟨q, hq, hpq⟩
    by_cases hqt : q.1 == tid
    · right; left
      exact ⟨q, hq, by rw [← hpq, if_pos hqt]⟩
    · left
      rw [← hpq, if_neg hqt]
      exact hq
  · rw [if_neg hc] at hp
    rcases List.mem_map.mp hp with ⟨q, hq, hpq⟩
    rcases List.mem_append.mp hq with hq | hq
    · by_cases hqt : q.1 == tid
      · right; left
        exact ⟨q, hq, by rw [← hpq, if_pos hqt]⟩
      · left
        rw [← hpq, if_neg hqt]
        exact hq
    · have hqeq : q = (tid, newThread userId tid msg) := by simpa using hq
      subst hqeq
      right; right
      rw [← hpq, if_pos (by simp)]

theorem groupMessages_inv (userId : String) (msgs : List Message) :
    ∀ p ∈ groupMessages userId msgs, threadInv userId p.2 := by
  have main : ∀ (ms : List Message) (acc : List (String × Thread)),
      (∀ p ∈ acc, threadInv userId p.2) →
      ∀ p ∈ ms.foldl (groupStep userId) acc, threadInv userId p.2 := by
    intro ms
    induction ms with
    | nil => intro acc hacc p hp; exact hacc p hp
    | cons m ms ih =>
      intro acc hacc p hp
      refine ih (groupStep userId acc m) ?_ p hp
      intro q hq
      rcases mem_groupStep hq with hq | ⟨r, hr, rfl⟩ | rfl
      · exact hacc q hq
      · exact threadInv_addMessage (hacc r hr)
      · exact threadInv_newEntry userId _ m
  intro p hp
  exact main msgs [] (by intro p hp; cases hp) p hp

end GetMessages

namespace GetMessages

theorem msgLe_total : ∀ a b : Message, msgLe a b = false → msgLe b a = true := by
  intro a b h
  simp only [msgLe, strLe_eq_false_iff] at h
  simp only [msgLe, strLe_iff]
  exact le_of_not_le h

theorem msgLe_trans :
    ∀ a b c : Message, msgLe a b = true → msgLe b c = true → msgLe a c = true := by
  intro a b c hab hbc
  simp only [msgLe, strLe_iff] at hab hbc ⊢
  exact hab.trans hbc

theorem threadLe_total : ∀ a b : Thread, threadLe a b = false → threadLe b a = true := by
  intro a b h
  simp only [threadLe, strLe_eq_false_iff] at h
  simp only [threadLe, strLe_iff]
  exact le_of_not_le h

theorem threadLe_trans :
    ∀ a b c : Thread, threadLe a b = true → threadLe b c = true → threadLe a c = true := by
  intro a b c hab hbc
  simp only [threadLe, strLe_iff] at hab hbc ⊢
  exact hbc.trans hab

theorem threadInv_sortThreadMessages {userId : String} {t : Thread}
    (h : threadInv userId t) : threadInv userId (sortThreadMessages t) := by
  obtain ⟨hub, ⟨w, hw, hweq⟩, hcnt⟩ := h
  have hperm := stableSort_perm msgLe t.messages
  refine ⟨?_, ?_, ?_⟩
  · intro m hm
    simp only [sortThreadMessages] at hm ⊢
    exact hub m (hperm.mem_iff.mp hm)
  · exact ⟨w, by simpa [sortThreadMessages] using hperm.mem_iff.mpr hw,
      by simpa [sortThreadMessages] using hweq⟩
  · simp only [sortThreadMessages]
    rw [countP_stableSort]
    exact hcnt

theorem mem_threads {store : Store} {userId : String} {t : Thread}
    (ht : t ∈ (lambda_handler store userId).1.threads) :
    ∃ p ∈ groupMessages userId (inputMessages store userId),
      t = sortThreadMessages p.2 := by
  have h1 : t ∈ (groupMessages userId (inputMessages store userId)).map
      (fun p => sortThreadMessages p.2) := by
    have h0 : t ∈ stableSort threadLe
        ((groupMessages userId (inputMessages store userId)).map
          (fun p => sortThreadMessages p.2)) := ht
    exact (stableSort_perm threadLe _).mem_iff.mp h0
  rcases List.mem_map.mp h1 with ⟨p, hp, hpt⟩
  exact ⟨p, hp, hpt.symm⟩

end GetMessages

/-- C5: thread-key derivation is symmetric in the participants: the key
derived from a message with sender A and recipient B about item I equals
the key derived from a message with sender B and recipient A about I. -/
theorem c5_thread_id_symmetric (itemId a b : String) :
    GetMessages.thread_id itemId a b = GetMessages.thread_id itemId b a := by
  unfold GetMessages.thread_id
  rcases lt_trichotomy a b with h | h | h
  · rw [if_neg (fun hba => lt_asymm h ((strLt_iff b a).mp hba)),
      if_pos ((strLt_iff a b).mpr h)]
  · rw [h]
  · rw [if_pos ((strLt_iff b a).mpr h),
      if_neg (fun hab => lt_asymm h ((strLt_iff a b).mp hab))]

/-- C6: the thread list returned by the aggregator is sorted descending by
`lastMessageTime`: every pair in order (in particular every adjacent pair)
satisfies `T1.lastMessageTime >= T2.lastMessageTime`. -/
theorem c6_threads_sorted_descending (store : Store) (userId : String) :
    ((GetMessages.lambda_handler store userId).1.threads).Pairwise
      (fun a b => b.lastMessageTime ≤ a.lastMessageTime) := by
  have h := stableSort_pairwise GetMessages.threadLe GetMessages.threadLe_total
    GetMessages.threadLe_trans
    ((GetMessages.groupMessages userId (GetMessages.inputMessages store userId)).map
      (fun p => GetMessages.sortThreadMessages p.2))
  exact h.imp (by
    intro a b hab
    simp only [GetMessages.threadLe] at hab
    exact (strLe_iff _ _).mp hab)

/-- C7: every thread returned by the aggregator has its messages sorted
ascending by `createdAt`; the sorted list is the stable sort of the
grouped messages (so ties keep their original relative order, expressed
as filter-equality at every timestamp); and `lastMessageTime` is the
maximum `createdAt` over the thread's messages. -/
theorem c7_messages_sorted_stable_and_last_time_max (store : Store) (userId : String)
    (t : GetMessages.Thread)
    (ht : t ∈ (GetMessages.lambda_handler store userId).1.threads) :
    t.messages.Pairwise (fun a b => a.createdAt ≤ b.createdAt) ∧
    (∃ p ∈ GetMessages.groupMessages userId (GetMessages.inputMessages store userId),
      t.messages = stableSort GetMessages.msgLe p.2.messages ∧
      ∀ s : String, t.messages.filter (fun m => m.createdAt == s)
        = p.2.messages.filter (fun m => m.createdAt == s)) ∧
    (∀ m ∈ t.messages, m.createdAt ≤ t.lastMessageTime) ∧
    (∃ m ∈ t.messages, m.createdAt = t.lastMessageTime) := by
  rcases GetMessages.mem_threads ht with ⟨p, hp, rfl⟩
  have hinv := GetMessages.threadInv_sortThreadMessages
    (GetMessages.groupMessages_inv userId _ p hp)
  refine ⟨?_, ⟨p, hp, rfl, ?_⟩, hinv.1, hinv.2.1⟩
  · have h := stableSort_pairwise GetMessages.msgLe GetMessages.msgLe_total
      GetMessages.msgLe_trans p.2.messages
    exact h.imp (by
      intro a b hab
      simp only [GetMessages.msgLe] at hab
      exact (strLe_iff _ _).mp hab)
  · intro s
    have hps : ∀ a b : Message, GetMessages.msgLe a b = false →
        (a.createdAt == s) = true → (b.createdAt == s) = true → False := by
      intro a b hab ha hb
      simp only [GetMessages.msgLe, strLe_eq_false_iff] at hab
      have ha' : a.createdAt = s := by simpa using ha
      have hb' : b.createdAt = s := by simpa using hb
      exact hab (by rw [ha', hb'])
    exact filter_stableSort GetMessages.msgLe _ hps p.2.messages

/-- Concrete one-message scenario used by the aggregator witnesses:
user B has sent one unread message about item I1 to user A. -/
def wMsg : Message :=
  { id := "m1", itemId := "I1", itemTitle := "Phone", itemStatus := "lost",
    senderUserId := "B", senderEmail := "b@x", senderName := "Bee",
    recipientUserId := "A", recipientEmail := "a@x", recipientName := "Aye",
    message := "hello", createdAt := "2026-01-01T00:00:00Z", read := false }

/-- Store for the aggregator witnesses: `wMsg` in the table and already
visible in the GSI view. -/
def wStore : Store := { table := [wMsg], gsiView := [wMsg] }

/-- The single thread the aggregator derives from `wStore` for user A. -/
def wThread : GetMessages.Thread :=
  { threadId := "I1#A#B", itemId := "I1", itemTitle := "Phone", itemStatus := "lost",
    otherUserId := "B", otherUserName := "Bee", otherUserEmail := "b@x",
    messages := [wMsg], lastMessageTime := "2026-01-01T00:00:00Z", unreadCount := 1 }

/-- Witness for C7 at the concrete one-message store. -/
theorem c7_witness :
    wThread.messages.Pairwise (fun a b => a.createdAt ≤ b.createdAt) ∧
    (∃ p ∈ GetMessages.groupMessages "A" (GetMessages.inputMessages wStore "A"),
      wThread.messages = stableSort GetMessages.msgLe p.2.messages ∧
      ∀ s : String, wThread.messages.filter (fun m => m.createdAt == s)
        = p.2.messages.filter (fun m => m.createdAt == s)) ∧
    (∀ m ∈ wThread.messages, m.createdAt ≤ wThread.lastMessageTime) ∧
    (∃ m ∈ wThread.messages, m.createdAt = wThread.lastMessageTime) :=
  c7_messages_sorted_stable_and_last_time_max wStore "A" wThread (by decide)

/-- C8: a returned thread's `unreadCount` counts exactly its messages
addressed to the requesting user with `read = false`; the response's
`unreadCount` is the sum of the per-thread counts; `totalMessages` is the
size of the combined input message set. -/
theorem c8_unread_and_totals (store : Store) (userId : String)
    (t : GetMessages.Thread)
    (ht : t ∈ (GetMessages.lambda_handler store userId).1.threads) :
    t.unreadCount = t.messages.countP (fun m => m.recipientUserId == userId && !m.read) ∧
    (GetMessages.lambda_handler store userId).1.unreadCount =
      (((GetMessages.lambda_handler store userId).1.threads).map
        (fun th => th.unreadCount)).sum ∧
    (GetMessages.lambda_handler store userId).1.totalMessages =
      (GetMessages.inputMessages store userId).length := by
  refine ⟨?_, rfl, rfl⟩
  rcases GetMessages.mem_threads ht with ⟨p, hp, rfl⟩
  exact (GetMessages.threadInv_sortThreadMessages
    (GetMessages.groupMessages_inv userId _ p hp)).2.2

/-- Witness for C8 at the concrete one-message store. -/
theorem c8_witness :
    wThread.unreadCount
      = wThread.messages.countP (fun m => m.recipientUserId == "A" && !m.read) ∧
    (GetMessages.lambda_handler wStore "A").1.unreadCount =
      (((GetMessages.lambda_handler wStore "A").1.threads).map
        (fun th => th.unreadCount)).sum ∧
    (GetMessages.lambda_handler wStore "A").1.totalMessages =
      (GetMessages.inputMessages wStore "A").length :=
  c8_unread_and_totals wStore "A" wThread (by decide)

/-- C9: the aggregate operation performs no writes: its effect trace
contains only the query and the scan, writes nothing, and applying its
trace leaves the store unchanged. -/
theorem c9_get_messages_no_writes (store : Store) (userId : String) :
    effectWrites (GetMessages.lambda_handler store userId).2 = [] ∧
    applyEffects store (GetMessages.lambda_handler store userId).2 = store := by
  refine ⟨rfl, ?_⟩
  simp [applyEffects, effectWrites, GetMessages.lambda_handler]

/-! ## Thread Resolver (SendReply/send_reply.py) and initial contact
(SendNotification/send_contact.py) -/

/-- Python presence check `field not in body or not body[field]`:
a field is missing when absent or falsy (the empty string). -/
def fieldMissing : Option String → Bool
  | none => true
  | some s => s.isEmpty

namespace SendReply

/-- Distinguishable failure conditions of the reply handler.  Each
constructor corresponds to one `raise` site of send_reply.py:
`missingField` and `messageTooLong` to lines 141 and 149, `selfMessage`
to line 153 ("You cannot send a message to yourself"),
`conversationNotFound` to line 239 ("Conversation thread not found -
please wait a few seconds and try again (GSI sync delay)"), and
`nameErrorDynamodb` to the NameError raised at line 221, where the
module references the global name `dynamodb` although only
`dynamodb_resource` is defined at module scope; that NameError is caught
by the catch-all handler and surfaced as an internal server error. -/
inductive ReplyError where
  | missingField (f : String)
  | messageTooLong
  | selfMessage
  | conversationNotFound
  | nameErrorDynamodb
deriving DecidableEq, Repr

/-- The request body of POST /messages/reply (the optional `threadId`
field is never read by the handler and is omitted). -/
structure ReplyRequest where
  itemId : Option String
  recipientUserId : Option String
  message : Option String
deriving DecidableEq, Repr

/-- The success payload (`messageId`, `sentAt`) of the clean JSON
response. -/
structure ReplySuccess where
  messageId : String
  sentAt : String
deriving DecidableEq, Repr

/-- The fallback chain, steps 1-4 (send_reply.py lines 159-235):

1. query the RecipientIndex for `recipientUserId == user_id` and pick the
   first item with matching `itemId` whose sender is the counterpart;
2. query the index for the counterpart as recipient and pick the first
   item with matching `itemId` whose sender is the current user;
3. scan the table with `Limit=10` — DynamoDB applies the limit to the
   items examined before filtering, so only the first 10 items of the
   table are inspected — and take the first match for the item and the
   unordered user pair;
4. on a total miss the source executes line 221, which references the
   undefined module-level name `dynamodb` and raises NameError before the
   Items-table lookup can run, so the `ConversationNotFound` raise at
   line 239 is unreachable. -/
def resolveContext (store : Store) (userId recipientUserId itemId : String) :
    Except ReplyError Message × List Effect :=
  match (store.gsiView.filter (fun m => m.recipientUserId == userId)).find?
      (fun m => m.itemId == itemId && m.senderUserId == recipientUserId) with
  | some em => (.ok em, [.queryRecipient userId])
  | none =>
    match (store.gsiView.filter (fun m => m.recipientUserId == recipientUserId)).find?
        (fun m => m.itemId == itemId && m.senderUserId == userId) with
    | some em => (.ok em, [.queryRecipient userId, .queryRecipient recipientUserId])
    | none =>
      match ((store.table.take 10).filter (fun m =>
          m.itemId == itemId &&
          ((m.senderUserId == userId && m.recipientUserId == recipientUserId) ||
           (m.senderUserId == recipientUserId && m.recipientUserId == userId)))).head? with
      | some em =>
        (.ok em, [.queryRecipient userId, .queryRecipient recipientUserId, .scanTable])
      | none =>
        (.error .nameErrorDynamodb,
         [.queryRecipient userId, .queryRecipient recipientUserId, .scanTable])

/-- The new message record assembled at lines 241-277.  Recipient name
and email are copied from whichever side of the prior message the
counterpart occupies (lines 245-257). -/
def buildReplyRecord
    (userId userEmail userName itemId recipientUserId messageText newId ts : String)
    (em : Message) : Message :=
  { id := newId
    itemId := itemId
    itemTitle := em.itemTitle
    itemStatus := em.itemStatus
    senderUserId := userId
    senderEmail := userEmail
    senderName := userName
    recipientUserId := recipientUserId
    recipientEmail := if em.senderUserId == recipientUserId then em.senderEmail
                      else if em.recipientUserId == recipientUserId then em.recipientEmail
                      else ""
    recipientName := if em.senderUserId == recipientUserId then em.senderName
                     else if em.recipientUserId == recipientUserId then em.recipientName
                     else "User"
    message := messageText
    createdAt := ts
    read := false }

/-- POST /messages/reply handler
(`send_reply_message_in_existing_conversation_thread`).  `newId` and `ts`
stand for the freshly generated uuid4 and the current timestamp, passed
explicitly to keep the function deterministic.  Validation (lines
138-153) runs before any store access; the single `put_item` (line 280)
runs only after the fallback chain succeeded. -/
def send_reply_message_in_existing_conversation_thread
    (store : Store) (userId userEmail userName : String) (req : ReplyRequest)
    (newId ts : String) : Except ReplyError ReplySuccess × List Effect :=
  if fieldMissing req.itemId then (.error (.missingField "itemId"), [])
  else if fieldMissing req.recipientUserId then
    (.error (.missingField "recipientUserId"), [])
  else if fieldMissing req.message then (.error (.missingField "message"), [])
  else if (req.message.getD "").length > 1000 then (.error .messageTooLong, [])
  else if req.recipientUserId.getD "" == userId then (.error .selfMessage, [])
  else
    match resolveContext store userId (req.recipientUserId.getD "") (req.itemId.getD "") with
    | (.error e, effs) => (.error e, effs)
    | (.ok em, effs) =>
      (.ok { messageId := newId, sentAt := ts },
       effs ++ [.putMessage (buildReplyRecord userId userEmail userName
         (req.itemId.getD "") (req.recipientUserId.getD "") (req.message.getD "")
         newId ts em)])

theorem resolveContext_no_writes (store : Store) (userId recipientUserId itemId : String) :
    effectWrites (resolveContext store userId recipientUserId itemId).2 = [] := by
  unfold resolveContext
  repeat' split
  all_goals rfl

/-- Boolean atomicity check of one handler run: a failing run writes
nothing; a successful run performs exactly one write, and that write is
the final effect of the trace. -/
def replyAtomic (out : Except ReplyError ReplySuccess × List Effect) : Bool :=
  match out.1 with
  | .error _ => (effectWrites out.2).isEmpty
  | .ok _ =>
    match out.2.getLast? with
    | some (.putMessage m) => decide (effectWrites out.2 = [m])
    | _ => false

end SendReply

theorem effectWrites_append (es fs : List Effect) :
    effectWrites (es ++ fs) = effectWrites es ++ effectWrites fs := by
  simp [effectWrites, List.filterMap_append]

namespace SendContact

/-- Failure conditions of the contact handler, one per `raise` site of
send_contact.py lines 150-171. -/
inductive ContactError where
  | missingField (f : String)
  | messageTooLong
  | itemNotFound
  | selfContact
deriving DecidableEq, Repr

/-- The request body of POST /contact (senderName/senderEmail come from
the identity claims, not the body). -/
structure ContactRequest where
  itemId : Option String
  message : Option String
deriving DecidableEq, Repr

/-- The success payload of the clean JSON response (restricted to the
fields derived from the flow). -/
structure ContactSuccess where
  messageId : String
  recipientEmail : String
deriving DecidableEq, Repr

/-- POST /contact handler (send_contact.py `lambda_handler`): validate
fields and length, fetch the item, reject when the item owner's recorded
email equals the sender's email (line 170 compares emails only), then
write the message record whose recipient identity is the item record's
`userId`/`userEmail`/`userName` snapshot. -/
def lambda_handler (itemsTable : List Item) (userId userEmail userName : String)
    (req : ContactRequest) (newId ts : String) :
    Except ContactError ContactSuccess × List Effect :=
  if fieldMissing req.itemId then (.error (.missingField "itemId"), [])
  else if fieldMissing req.message then (.error (.missingField "message"), [])
  else if (req.message.getD "").length > 1000 then (.error .messageTooLong, [])
  else
    match itemsTable.find? (fun it => it.id == req.itemId.getD "") with
    | none => (.error .itemNotFound, [.getItem (req.itemId.getD "")])
    | some item =>
      if item.userEmail == userEmail then
        (.error .selfContact, [.getItem (req.itemId.getD "")])
      else
        (.ok { messageId := newId, recipientEmail := item.userEmail },
         [.getItem (req.itemId.getD ""),
          .putMessage
            { id := newId
              itemId := req.itemId.getD ""
              itemTitle := item.title
              itemStatus := item.status
              senderUserId := userId
              senderEmail := userEmail
              senderName := userName
              recipientUserId := item.userId
              recipientEmail := item.userEmail
              recipientName := item.userName
              message := req.message.getD ""
              createdAt := ts
              read := false }])

end SendContact

/-- Request used by the resolver scenarios: itemId I1, recipient B,
message "hi". -/
def replyReq : SendReply.ReplyRequest :=
  { itemId := some "I1", recipientUserId := some "B", message := some "hi" }

/-- C1 (code bug): on a resolver total miss — empty index view, empty
table — the handler does not fail with the ConversationNotFound condition
of line 239; it fails with the NameError raised at line 221 (the undefined
global `dynamodb`), surfaced as an internal server error, before the item
lookup can even run. -/
theorem c1_total_miss_internal_error :
    (SendReply.send_reply_message_in_existing_conversation_thread
        ⟨[], []⟩ "A" "a@x" "Aye" replyReq "m9" "T9").1
      = .error .nameErrorDynamodb ∧
    (SendReply.send_reply_message_in_existing_conversation_thread
        ⟨[], []⟩ "A" "a@x" "Aye" replyReq "m9" "T9").1
      ≠ .error .conversationNotFound := by
  have h1 : (SendReply.send_reply_message_in_existing_conversation_thread
      ⟨[], []⟩ "A" "a@x" "Aye" replyReq "m9" "T9").1
      = .error .nameErrorDynamodb := rfl
  refine ⟨h1, fun h => ?_⟩
  rw [h1] at h
  exact SendReply.ReplyError.noConfusion (Except.error.inj h)

/-- A message unrelated to the I1 conversation, used to pad the table in
front of the true match. -/
def c2Junk : Message :=
  { id := "x", itemId := "J", itemTitle := "Junk", itemStatus := "lost",
    senderUserId := "X", senderEmail := "", senderName := "",
    recipientUserId := "Y", recipientEmail := "", recipientName := "",
    message := "m", createdAt := "T0", read := false }

/-- The one message of the I1 conversation between A and B. -/
def c2Match : Message :=
  { id := "m0", itemId := "I1", itemTitle := "Phone", itemStatus := "lost",
    senderUserId := "A", senderEmail := "a@x", senderName := "Aye",
    recipientUserId := "B", recipientEmail := "b@x", recipientName := "Bee",
    message := "first", createdAt := "T1", read := false }

/-- A store whose index view lags (empty) and whose table holds ten
unrelated messages ahead of the only matching one. -/
def c2Store : Store := { table := List.replicate 10 c2Junk ++ [c2Match], gsiView := [] }

/-- C2 counterexample: both index queries miss and the table does contain
a message matching the item and the unordered user pair, yet the resolver
fails: the scan is bounded to the first 10 items examined (Limit=10) and
the match is the 11th table item. -/
theorem c2_counterexample :
    ((c2Store.gsiView.filter (fun m => m.recipientUserId == "A")).find?
        (fun m => m.itemId == "I1" && m.senderUserId == "B") = none) ∧
    ((c2Store.gsiView.filter (fun m => m.recipientUserId == "B")).find?
        (fun m => m.itemId == "I1" && m.senderUserId == "A") = none) ∧
    (∃ m ∈ c2Store.table, m.itemId = "I1" ∧ m.senderUserId = "A" ∧
      m.recipientUserId = "B") ∧
    (SendReply.send_reply_message_in_existing_conversation_thread
        c2Store "A" "a@x" "Aye" replyReq "m9" "T9").1 = .error .nameErrorDynamodb := by
  refine ⟨rfl, rfl, ⟨c2Match, by decide, rfl, rfl, rfl⟩, rfl⟩

/-- C2 (amended): when the two index queries miss but a message matching
the item and the unordered user pair occurs among the first 10 table
items the bounded scan examines (the source passes Limit=10, applied
before filtering), the resolver succeeds, and the record it writes takes
its context from the scan's first match. -/
theorem c2_amended_scan_fallback (store : Store)
    (userId userEmail userName itemId recipientUserId messageText newId ts : String)
    (em : Message)
    (hItem : itemId.isEmpty = false)
    (hRecip : recipientUserId.isEmpty = false)
    (hMsg : messageText.isEmpty = false)
    (hLen : messageText.length ≤ 1000)
    (hSelf : (recipientUserId == userId) = false)
    (hq1 : (store.gsiView.filter (fun m => m.recipientUserId == userId)).find?
        (fun m => m.itemId == itemId && m.senderUserId == recipientUserId) = none)
    (hq2 : (store.gsiView.filter (fun m => m.recipientUserId == recipientUserId)).find?
        (fun m => m.itemId == itemId && m.senderUserId == userId) = none)
    (hscan : ((store.table.take 10).filter (fun m =>
        m.itemId == itemId &&
        ((m.senderUserId == userId && m.recipientUserId == recipientUserId) ||
         (m.senderUserId == recipientUserId && m.recipientUserId == userId)))).head?
      = some em) :
    SendReply.send_reply_message_in_existing_conversation_thread store userId userEmail
        userName ⟨some itemId, some recipientUserId, some messageText⟩ newId ts
      = (.ok { messageId := newId, sentAt := ts },
         [.queryRecipient userId, .queryRecipient recipientUserId, .scanTable,
          .putMessage (SendReply.buildReplyRecord userId userEmail userName itemId
            recipientUserId messageText newId ts em)]) := by
  have hres : SendReply.resolveContext store userId recipientUserId itemId
      = (.ok em, [.queryRecipient userId, .queryRecipient recipientUserId, .scanTable]) := by
    unfold SendReply.resolveContext
    rw [hq1, hq2, hscan]
  unfold SendReply.send_reply_message_in_existing_conversation_thread
  dsimp only [fieldMissing, Option.getD]
  rw [hItem, hRecip, hMsg]
  simp only [Bool.false_eq_true, if_false]
  rw [if_neg (by omega), if_neg (by simp [hSelf]), hres]
  rfl

/-- Store for the amended-C2 witness: the match is the only table item,
the index view still lags (empty). -/
def c2SmallStore : Store := { table := [c2Match], gsiView := [] }

/-- Witness for the amended C2 at a concrete store where only the scan
can find the conversation. -/
theorem c2_witness :
    SendReply.send_reply_message_in_existing_conversation_thread c2SmallStore "A" "a@x"
        "Aye" ⟨some "I1", some "B", some "hi"⟩ "m9" "T9"
      = (.ok { messageId := "m9", sentAt := "T9" },
         [.queryRecipient "A", .queryRecipient "B", .scanTable,
          .putMessage (SendReply.buildReplyRecord "A" "a@x" "Aye" "I1" "B" "hi"
            "m9" "T9" c2Match)]) :=
  c2_amended_scan_fallback c2SmallStore "A" "a@x" "Aye" "I1" "B" "hi" "m9" "T9" c2Match
    rfl rfl rfl (by decide) rfl rfl rfl rfl

/-- Item whose recorded owner userId is the sender's but whose recorded
owner email is stale (differs from the sender's current email). -/
def c3Item : Item :=
  { id := "I1", title := "Phone", status := "lost",
    userId := "U1", userEmail := "old@x", userName := "Owner" }

/-- C3 (code bug): the contact flow guards self-messaging by comparing
emails only (send_contact.py line 170), while the record's recipient is
the item record's `userId`.  A sender whose userId equals the item's
recorded userId but whose email differs is not rejected: the handler
succeeds and writes a message with senderUserId = recipientUserId,
violating the claimed invariant. -/
theorem c3_contact_writes_self_message :
    (SendContact.lambda_handler [c3Item] "U1" "new@x" "Enn"
        ⟨some "I1", some "hi"⟩ "m1" "T1").1
      = .ok { messageId := "m1", recipientEmail := "old@x" } ∧
    (effectWrites (SendContact.lambda_handler [c3Item] "U1" "new@x" "Enn"
        ⟨some "I1", some "hi"⟩ "m1" "T1").2).length = 1 ∧
    ∀ m ∈ effectWrites (SendContact.lambda_handler [c3Item] "U1" "new@x" "Enn"
        ⟨some "I1", some "hi"⟩ "m1" "T1").2,
      m.senderUserId = "U1" ∧ m.recipientUserId = "U1" :=
  ⟨rfl, rfl, by decide⟩

/-- A 1001-character message, one over the configured limit. -/
def longMessage : String := String.mk (List.replicate 1001 'a')

set_option maxRecDepth 20000 in
/-- C4 counterexample: a self-addressed request with all required fields
present but an oversized message fails with the length validation error
(line 148 runs before the self check at line 152), not with
SelfMessageRejected. -/
theorem c4_counterexample :
    (SendReply.send_reply_message_in_existing_conversation_thread
        ⟨[], []⟩ "A" "a@x" "Aye" ⟨some "I1", some "A", some longMessage⟩ "m9" "T9").1
      = .error .messageTooLong ∧
    (SendReply.send_reply_message_in_existing_conversation_thread
        ⟨[], []⟩ "A" "a@x" "Aye" ⟨some "I1", some "A", some longMessage⟩ "m9" "T9").1
      ≠ .error .selfMessage := by
  have h1 : (SendReply.send_reply_message_in_existing_conversation_thread
      ⟨[], []⟩ "A" "a@x" "Aye" ⟨some "I1", some "A", some longMessage⟩ "m9" "T9").1
      = .error .messageTooLong := rfl
  refine ⟨h1, fun h => ?_⟩
  rw [h1] at h
  exact SendReply.ReplyError.noConfusion (Except.error.inj h)

/-- C4 (amended): with all required fields present and the message within
the 1000-character limit, a request whose recipient equals the current
user fails with SelfMessageRejected for every store state, and its effect
trace is empty — no store lookup or write precedes the rejection. -/
theorem c4_amended_self_message_rejected (store : Store)
    (userId userEmail userName itemId messageText newId ts : String)
    (hItem : itemId.isEmpty = false)
    (hUid : userId.isEmpty = false)
    (hMsg : messageText.isEmpty = false)
    (hLen : messageText.length ≤ 1000) :
    SendReply.send_reply_message_in_existing_conversation_thread store userId userEmail
        userName ⟨some itemId, some userId, some messageText⟩ newId ts
      = (.error .selfMessage, []) := by
  unfold SendReply.send_reply_message_in_existing_conversation_thread
  dsimp only [fieldMissing, Option.getD]
  rw [hItem, hUid, hMsg]
  simp only [Bool.false_eq_true, if_false]
  rw [if_neg (by omega), if_pos (by simp)]

/-- Witness for the amended C4 at a concrete store and request. -/
theorem c4_witness :
    SendReply.send_reply_message_in_existing_conversation_thread wStore "A" "a@x" "Aye"
        ⟨some "I1", some "A", some "hi"⟩ "m9" "T9"
      = (.error .selfMessage, []) :=
  c4_amended_self_message_rejected wStore "A" "a@x" "Aye" "I1" "hi" "m9" "T9"
    rfl rfl rfl (by decide)

/-- C10: the resolve-and-send operation is atomic with respect to the
message store: every failing run (missing field, oversized message,
self-message, resolution failure) writes nothing, and every successful
run performs exactly one write — the new record's put — as its final
effect, after validation and context resolution succeeded. -/
theorem c10_reply_atomic (store : Store) (userId userEmail userName : String)
    (req : SendReply.ReplyRequest) (newId ts : String) :
    SendReply.replyAtomic (SendReply.send_reply_message_in_existing_conversation_thread
      store userId userEmail userName req newId ts) = true := by
  unfold SendReply.send_reply_message_in_existing_conversation_thread
  split
  · rfl
  · split
    · rfl
    · split
      · rfl
      · split
        · rfl
        · split
          · rfl
          · split
            · next e effs heq =>
                have hw : effectWrites effs = [] := by
                  have h0 := SendReply.resolveContext_no_writes store userId
                    (req.recipientUserId.getD "") (req.itemId.getD "")
                  rw [heq] at h0
                  exact h0
                simp [SendReply.replyAtomic, hw]
            · next em effs heq =>
                have hw : effectWrites effs = [] := by
                  have h0 := SendReply.resolveContext_no_writes store userId
                    (req.recipientUserId.getD "") (req.itemId.getD "")
                  rw [heq] at h0
                  exact h0
                have hwr : ∀ r : Message,
                    effectWrites (effs ++ [Effect.putMessage r]) = [r] := by
                  intro r
                  rw [effectWrites_append, hw]
                  rfl
                simp [SendReply.replyAtomic, List.getLast?_concat, hwr]
